import Mathlib

/-!
Shallow embedding of the webhook-receiver application (`src/app.py`).

The application receives GitHub webhook deliveries, normalizes push and
pull-request payloads into flat records, stores them in a MongoDB
collection, and serves the most recent records to a polling UI.  The
embedding models Python JSON-like values (`PyVal`), dictionary key lookup
with `KeyError` semantics, the ISO-8601 timestamp parsing performed by
`parse_github_timestamp`, the `/webhook` handler `github_webhook`, the
`/events` handler `get_events`, and the `/test-db` handler `test_db`.
The MongoDB collection is modelled as a list of documents in insertion
order; `insert_one` assigns a fresh `_id` to each inserted document.
-/

deriving instance DecidableEq for Except

namespace WebhookApp

/-- A Python value as it occurs in this application: JSON scalars and
objects from a parsed request body, plus `datetime` objects produced by
timestamp parsing and BSON object ids assigned by the storage layer. -/
inductive PyVal where
  | pynone
  | bool (b : Bool)
  | int (n : Int)
  | str (s : String)
  | dt (year month day hour minute second : Nat) (offset : Option Int)
  | oid (n : Nat)
  | dict (kvs : List (String × PyVal))
  deriving Repr

/-- Structural equality on `PyVal`, mirroring Python `==` on these values. -/
def PyVal.beq : PyVal → PyVal → Bool
  | .pynone, .pynone => true
  | .bool a, .bool b => a == b
  | .int a, .int b => a == b
  | .str a, .str b => a == b
  | .dt y1 mo1 d1 h1 mi1 s1 o1, .dt y2 mo2 d2 h2 mi2 s2 o2 =>
      y1 == y2 && mo1 == mo2 && d1 == d2 && h1 == h2 && mi1 == mi2 && s1 == s2 && o1 == o2
  | .oid a, .oid b => a == b
  | .dict a, .dict b => go a b
  | _, _ => false
where go : List (String × PyVal) → List (String × PyVal) → Bool
  | [], [] => true
  | (k1, v1) :: r1, (k2, v2) :: r2 => k1 == k2 && PyVal.beq v1 v2 && go r1 r2
  | _, _ => false

theorem PyVal.beq_iff : ∀ a b : PyVal, PyVal.beq a b = true ↔ a = b := by
  intro a
  induction a using PyVal.rec
    (motive_2 := fun l => ∀ m, PyVal.beq.go l m = true ↔ l = m)
    (motive_3 := fun p => ∀ q : String × PyVal, (p.1 == q.1 && PyVal.beq p.2 q.2) = true ↔ p = q)
  case pynone => intro b; cases b <;> simp [PyVal.beq]
  case bool => intro b; cases b <;> simp [PyVal.beq]
  case int => intro b; cases b <;> simp [PyVal.beq]
  case str => intro b; cases b <;> simp [PyVal.beq]
  case dt => intro b; cases b <;> simp [PyVal.beq, and_assoc]
  case oid => intro b; cases b <;> simp [PyVal.beq]
  case dict l ih =>
    intro b; cases b <;> simp [PyVal.beq]
    exact ih _
  case nil m => cases m <;> simp [PyVal.beq.go]
  case cons hd tl hhd htl m =>
    cases m with
    | nil => simp [PyVal.beq.go]
    | cons q r2 =>
      obtain ⟨k1, v1⟩ := hd
      obtain ⟨k2, v2⟩ := q
      simp only [PyVal.beq.go, Bool.and_eq_true]
      constructor
      · rintro ⟨h1, h2⟩
        have e1 := (hhd (k2, v2)).mp (by simpa using h1)
        have e2 := (htl r2).mp h2
        simp [e1, e2]
      · rintro h
        injection h with h1 h2
        subst h2
        have hh := (hhd (k2, v2)).mpr h1
        simp only [Bool.and_eq_true] at hh
        exact ⟨hh, (htl tl).mpr rfl⟩
  case mk k v hv q =>
    obtain ⟨k2, v2⟩ := q
    simp [hv, Prod.ext_iff]

instance : DecidableEq PyVal := fun a b =>
  decidable_of_iff _ (PyVal.beq_iff a b)

/-- Python exceptions that the handler code can raise. -/
inductive PyErr where
  | keyError (k : String)
  | attributeError
  | valueError
  deriving Repr, DecidableEq

/-- Python `payload[k]` on a value: returns the value bound to `k` in a
dictionary, raises `KeyError` when the key is missing, and raises a
(type-like) error when subscripting a non-dictionary. -/
def PyVal.getKey : PyVal → String → Except PyErr PyVal
  | .dict kvs, k =>
      match kvs.lookup k with
      | some v => Except.ok v
      | Option.none => Except.error (PyErr.keyError k)
  | _, k => Except.error (PyErr.keyError k)

/-- Requires a value to be a Python string, as `str.replace` and
`str.split` do; any other value raises `AttributeError`. -/
def PyVal.asStr : PyVal → Except PyErr String
  | .str s => Except.ok s
  | _ => Except.error PyErr.attributeError

/-- Python truthiness of a value (`if not payload`, `if data`,
`and pr["merged"]`). -/
def PyVal.truthy : PyVal → Bool
  | .pynone => false
  | .bool b => b
  | .int n => n != 0
  | .str s => s != ""
  | .dict kvs => !kvs.isEmpty
  | .dt _ _ _ _ _ _ _ => true
  | .oid _ => true

/-- Python `str(v)` for the value shapes this application converts; the
only use in the source is `str(pr["id"])` on the numeric pull-request id. -/
def pyStr : PyVal → String
  | .int n => toString n
  | .str s => s
  | .bool b => if b then "True" else "False"
  | .pynone => "None"
  | _ => ""

/-- `YYYY-MM-DDTHH:MM:SS±HH:MM` components of a parsed timestamp, the
payload of a `datetime` value; `offset` is the UTC offset in minutes,
`Option.none` for a naive datetime. -/
structure Datetime where
  year : Nat
  month : Nat
  day : Nat
  hour : Nat
  minute : Nat
  second : Nat
  offset : Option Int
  deriving Repr, DecidableEq

/-- Python `s.replace("Z", "+00:00")` at character level: every occurrence
of the one-character pattern `Z` is replaced by `+00:00`. -/
def replaceZ : List Char → List Char
  | [] => []
  | c :: cs =>
      if c = 'Z' then '+' :: '0' :: '0' :: ':' :: '0' :: '0' :: replaceZ cs
      else c :: replaceZ cs

/-- Reads exactly `n` decimal digits, returning their value and the rest. -/
def readDigitsAux (acc : Nat) : Nat → List Char → Option (Nat × List Char)
  | 0, cs => some (acc, cs)
  | _ + 1, [] => Option.none
  | n + 1, c :: cs =>
      if c.isDigit then readDigitsAux (acc * 10 + (c.toNat - 48)) n cs
      else Option.none

/-- Consumes one expected character. -/
def expectChar (c : Char) : List Char → Option (List Char)
  | x :: xs => if x = c then some xs else Option.none
  | [] => Option.none

/-- Parses the optional trailing UTC offset `±HH:MM`; an empty remainder
yields a naive datetime (`some Option.none`), anything else must be a
complete offset ending the string. -/
def parseTZ : List Char → Option (Option Int)
  | [] => some Option.none
  | c :: cs =>
      if c = '+' ∨ c = '-' then
        match readDigitsAux 0 2 cs with
        | Option.none => Option.none
        | some (oh, cs1) =>
          match expectChar ':' cs1 with
          | Option.none => Option.none
          | some cs2 =>
            match readDigitsAux 0 2 cs2 with
            | Option.none => Option.none
            | some (om, cs3) =>
              if cs3 = [] ∧ oh < 24 ∧ om < 60 then
                some (some (if c = '+' then (oh * 60 + om : Int) else -(oh * 60 + om : Int)))
              else Option.none
      else Option.none

/-- Parses the optional time-of-day part `(T| )HH:MM:SS` followed by the
optional offset; an empty remainder yields midnight with no offset. -/
def parseTime : List Char → Option (Nat × Nat × Nat × Option Int)
  | [] => some (0, 0, 0, Option.none)
  | c :: cs =>
      if c = 'T' ∨ c = ' ' then
        match readDigitsAux 0 2 cs with
        | Option.none => Option.none
        | some (h, cs1) =>
          match expectChar ':' cs1 with
          | Option.none => Option.none
          | some cs2 =>
            match readDigitsAux 0 2 cs2 with
            | Option.none => Option.none
            | some (mi, cs3) =>
              match expectChar ':' cs3 with
              | Option.none => Option.none
              | some cs4 =>
                match readDigitsAux 0 2 cs4 with
                | Option.none => Option.none
                | some (sec, cs5) =>
                  match parseTZ cs5 with
                  | Option.none => Option.none
                  | some tz =>
                    if h < 24 ∧ mi < 60 ∧ sec < 60 then some (h, mi, sec, tz)
                    else Option.none
      else Option.none

/-- Model of Python `datetime.fromisoformat` restricted to the ISO-8601
shapes this application receives: `YYYY-MM-DD`, optionally followed by
`(T| )HH:MM:SS`, optionally followed by `±HH:MM`.  A bare `Z`
UTC designator is not accepted; the caller replaces it first. -/
def fromisoformatL (cs : List Char) : Option Datetime :=
  match readDigitsAux 0 4 cs with
  | Option.none => Option.none
  | some (y, cs1) =>
    match expectChar '-' cs1 with
    | Option.none => Option.none
    | some cs2 =>
      match readDigitsAux 0 2 cs2 with
      | Option.none => Option.none
      | some (mo, cs3) =>
        match expectChar '-' cs3 with
        | Option.none => Option.none
        | some cs4 =>
          match readDigitsAux 0 2 cs4 with
          | Option.none => Option.none
          | some (d, cs5) =>
            match parseTime cs5 with
            | Option.none => Option.none
            | some (h, mi, sec, tz) =>
              if 1 ≤ y ∧ 1 ≤ mo ∧ mo ≤ 12 ∧ 1 ≤ d ∧ d ≤ 31 then
                some ⟨y, mo, d, h, mi, sec, tz⟩
              else Option.none

/-- `parse_github_timestamp` (src/app.py lines 34-38): replaces the `Z`
UTC designator by `+00:00` and parses the result; an unparseable string
raises `ValueError`, as `datetime.fromisoformat` does. -/
def parse_github_timestamp (timestamp_str : String) : Except PyErr Datetime :=
  match fromisoformatL (replaceZ timestamp_str.data) with
  | some d => Except.ok d
  | Option.none => Except.error PyErr.valueError

/-- A stored MongoDB document: an ordered association list of fields. -/
abbrev Doc := List (String × PyVal)

/-- `collection.insert_one`: appends exactly one new document, with a
fresh `_id` object id, to the collection; existing documents are never
touched. -/
def insert_one (store : List Doc) (d : Doc) : List Doc :=
  store ++ [d ++ [("_id", PyVal.oid store.length)]]

/-- Python `timestamp_str.split("/")` for the one-character separator. -/
def splitOnChar (sep : Char) : List Char → List (List Char)
  | [] => [[]]
  | c :: cs =>
      if c = sep then [] :: splitOnChar sep cs
      else
        match splitOnChar sep cs with
        | [] => [[c]]
        | p :: ps => (c :: p) :: ps

/-- `payload["ref"].split("/")[-1]`: the final `/`-delimited segment. -/
def lastSegment (s : String) : String :=
  String.mk ((splitOnChar '/' s.data).getLastD [])

/-- The `data` dictionary computed by `github_webhook` (src/app.py lines
54-94): `Option.none` when no branch assigns `data`, otherwise the record
literal of the matching branch.  Field lookups follow Python evaluation
order inside each dictionary literal and raise on missing keys. -/
def normalize (event_type : Option String) (payload : PyVal) : Except PyErr (Option Doc) :=
  if event_type = some "push" then do
    let hc ← payload.getKey "head_commit"
    let rid ← hc.getKey "id"
    let pusher ← payload.getKey "pusher"
    let author ← pusher.getKey "name"
    let refv ← payload.getKey "ref"
    let refStr ← refv.asStr
    let hc2 ← payload.getKey "head_commit"
    let tsv ← hc2.getKey "timestamp"
    let tsStr ← tsv.asStr
    let ts ← parse_github_timestamp tsStr
    Except.ok (some [
      ("request_id", rid),
      ("author", author),
      ("action", PyVal.str "PUSH"),
      ("from_branch", PyVal.pynone),
      ("to_branch", PyVal.str (lastSegment refStr)),
      ("timestamp", PyVal.dt ts.year ts.month ts.day ts.hour ts.minute ts.second ts.offset)])
  else if event_type = some "pull_request" then do
    let pr ← payload.getKey "pull_request"
    let action ← payload.getKey "action"
    if PyVal.beq action (PyVal.str "opened") || PyVal.beq action (PyVal.str "synchronize") then do
      let idv ← pr.getKey "id"
      let user ← pr.getKey "user"
      let login ← user.getKey "login"
      let head ← pr.getKey "head"
      let headRef ← head.getKey "ref"
      let base ← pr.getKey "base"
      let baseRef ← base.getKey "ref"
      let createdv ← pr.getKey "created_at"
      let createdStr ← createdv.asStr
      let ts ← parse_github_timestamp createdStr
      Except.ok (some [
        ("request_id", PyVal.str (pyStr idv)),
        ("author", login),
        ("action", PyVal.str "PULL_REQUEST"),
        ("from_branch", headRef),
        ("to_branch", baseRef),
        ("timestamp", PyVal.dt ts.year ts.month ts.day ts.hour ts.minute ts.second ts.offset)])
    else if PyVal.beq action (PyVal.str "closed") then do
      let merged ← pr.getKey "merged"
      if merged.truthy then do
        let idv ← pr.getKey "id"
        let user ← pr.getKey "user"
        let login ← user.getKey "login"
        let head ← pr.getKey "head"
        let headRef ← head.getKey "ref"
        let base ← pr.getKey "base"
        let baseRef ← base.getKey "ref"
        let mergedv ← pr.getKey "merged_at"
        let mergedStr ← mergedv.asStr
        let ts ← parse_github_timestamp mergedStr
        Except.ok (some [
          ("request_id", PyVal.str (pyStr idv)),
          ("author", login),
          ("action", PyVal.str "MERGE"),
          ("from_branch", headRef),
          ("to_branch", baseRef),
          ("timestamp", PyVal.dt ts.year ts.month ts.day ts.hour ts.minute ts.second ts.offset)])
      else Except.ok Option.none
    else Except.ok Option.none
  else Except.ok Option.none

/-- Outcome of one `/webhook` request that did not raise: the collection
after the request, the JSON response body, and the HTTP status code. -/
structure HandlerResult where
  store : List Doc
  body : PyVal
  status : Nat
  deriving Repr, DecidableEq

/-- The `jsonify({"status": "success"})` response body. -/
def successResp : PyVal := PyVal.dict [("status", PyVal.str "success")]

/-- The `jsonify({"error": "Invalid payload"})` response body. -/
def invalidResp : PyVal := PyVal.dict [("error", PyVal.str "Invalid payload")]

/-- `github_webhook` (src/app.py lines 42-99): rejects a falsy payload
with status 400, computes `data`, inserts it when truthy, and
acknowledges with status 200.  An uncaught Python exception shows up as
`Except.error`: the request fails and nothing is inserted. -/
def github_webhook (store : List Doc) (event_type : Option String) (payload : PyVal) :
    Except PyErr HandlerResult := do
  if !payload.truthy then
    return ⟨store, invalidResp, 400⟩
  let data ← normalize event_type payload
  match data with
  | some d =>
      if !d.isEmpty then
        return ⟨insert_one store d, successResp, 200⟩
      else
        return ⟨store, successResp, 200⟩
  | Option.none => return ⟨store, successResp, 200⟩

/-- `test_db` (src/app.py lines 127-130): inserts a diagnostic document
into the same collection and returns a plain-text body. -/
def test_db (store : List Doc) : List Doc × String :=
  (insert_one store [("test", PyVal.str "MongoDB connected")], "MongoDB working!")

/-- Cumulative days before month `m` in a non-leap year. -/
def cumDays : Nat → Nat
  | 1 => 0 | 2 => 31 | 3 => 59 | 4 => 90 | 5 => 120 | 6 => 151
  | 7 => 181 | 8 => 212 | 9 => 243 | 10 => 273 | 11 => 304 | 12 => 334
  | _ => 0

def isLeap (y : Nat) : Bool :=
  (y % 4 == 0 && y % 100 != 0) || y % 400 == 0

/-- The UTC instant of a datetime in seconds on a proleptic Gregorian
axis; MongoDB compares stored datetimes by this instant.  A naive
datetime is treated as UTC, as pymongo stores it. -/
def toInstant (d : Datetime) : Int :=
  let leapAdd : Nat := if 3 ≤ d.month ∧ isLeap d.year then 1 else 0
  let days : Nat := 365 * (d.year - 1) + (d.year - 1) / 4 - (d.year - 1) / 100
      + (d.year - 1) / 400 + cumDays d.month + leapAdd + (d.day - 1)
  ((days * 86400 + d.hour * 3600 + d.minute * 60 + d.second : Nat) : Int)
    - (d.offset.getD 0) * 60

/-- The sort key of `.sort("timestamp", -1)`: the instant of the
document's `timestamp` field; a document without a datetime there (the
diagnostic document) compares below every datetime. -/
def tsKey (d : Doc) : Option Int :=
  match List.lookup "timestamp" d with
  | some (PyVal.dt y mo dy h mi s o) => some (toInstant ⟨y, mo, dy, h, mi, s, o⟩)
  | _ => Option.none

/-- `a` sorts at-or-before `b` in descending order. -/
def keyGe (a b : Option Int) : Bool :=
  match a, b with
  | Option.none, Option.none => true
  | Option.none, some _ => false
  | some _, Option.none => true
  | some x, some y => y ≤ x

/-- One step of a stable descending insertion sort on the sort key. -/
def insertDesc (x : Doc) : List Doc → List Doc
  | [] => [x]
  | y :: ys => if keyGe (tsKey x) (tsKey y) then x :: y :: ys else y :: insertDesc x ys

/-- `.sort("timestamp", -1)`: the collection sorted by timestamp
descending, stable in insertion order. -/
def sortDesc (l : List Doc) : List Doc := l.foldr insertDesc []

/-- The projection `{"_id": 0}`: drops the internal storage identifier. -/
def projNoId (d : Doc) : Doc := d.filter (fun kv => !(kv.1 == "_id"))

/-- `get_events` (src/app.py lines 103-114): returns the stored documents
sorted by `timestamp` descending, limited to 20, with `_id` projected
away.  The handler reads nothing from the request, so a recency
parameter a polling client may supply is accepted and ignored. -/
def get_events (store : List Doc) (since : Option Datetime) : List Doc :=
  ((sortDesc store).take 20).map projNoId

/-- Adjacent-pairs check that a list of documents is sorted by timestamp
descending. -/
def sortedDescB : List Doc → Bool
  | x :: y :: ys => keyGe (tsKey x) (tsKey y) && sortedDescB (y :: ys)
  | _ => true

/-- The field names of a document, in order. -/
def docKeys (d : Doc) : List String := d.map Prod.fst

/-- The six canonical fields of a normalized record, in the order the
handler builds them. -/
def canonicalFields : List String :=
  ["request_id", "author", "action", "from_branch", "to_branch", "timestamp"]

/-- A GitHub push payload carrying the fields `github_webhook` reads:
head-commit id and timestamp, pusher name, and the ref string. -/
def pushPayload (cid pusherName ref ts : String) : PyVal :=
  PyVal.dict [
    ("ref", PyVal.str ref),
    ("before", PyVal.str ""),
    ("head_commit", PyVal.dict [
      ("id", PyVal.str cid),
      ("timestamp", PyVal.str ts)]),
    ("pusher", PyVal.dict [("name", PyVal.str pusherName)])]

/-- A GitHub pull-request payload carrying the fields `github_webhook`
reads: the inner action, and the pull-request id, author login, head and
base refs, creation time, merged flag and merge time. -/
def prPayload (act : String) (prid : Int) (login headRef baseRef created : String)
    (merged : Bool) (mergedAt : String) : PyVal :=
  PyVal.dict [
    ("action", PyVal.str act),
    ("number", PyVal.int prid),
    ("pull_request", PyVal.dict [
      ("id", PyVal.int prid),
      ("user", PyVal.dict [("login", PyVal.str login)]),
      ("head", PyVal.dict [("ref", PyVal.str headRef)]),
      ("base", PyVal.dict [("ref", PyVal.str baseRef)]),
      ("created_at", PyVal.str created),
      ("merged", PyVal.bool merged),
      ("merged_at", PyVal.str mergedAt)])]

/-- Presence of a field with a value other than Python `None`. -/
def fieldNonNull (d : Doc) (k : String) : Bool :=
  match List.lookup k d with
  | some PyVal.pynone => false
  | some _ => true
  | Option.none => false

/-- The four fields the spec requires every stored record to carry. -/
def requiredNonNull (d : Doc) : Bool :=
  fieldNonNull d "action" && fieldNonNull d "author" &&
  fieldNonNull d "request_id" && fieldNonNull d "timestamp"

section Lemmas

theorem lookup_projNoId (d : Doc) (k : String) (hk : k ≠ "_id") :
    List.lookup k (projNoId d) = List.lookup k d := by
  induction d with
  | nil => rfl
  | cons kv rest ih =>
    obtain ⟨k1, v⟩ := kv
    by_cases h1 : k1 = "_id"
    · subst h1
      have hkk : (k == "_id") = false := beq_eq_false_iff_ne.mpr hk
      simp [projNoId, List.lookup, hkk] at ih ⊢
      exact ih
    · have h1' : (k1 == "_id") = false := beq_eq_false_iff_ne.mpr h1
      by_cases h2 : k = k1
      · subst h2
        simp [projNoId, List.lookup, h1']
      · have h2' : (k == k1) = false := beq_eq_false_iff_ne.mpr h2
        simp [projNoId, List.lookup, h1', h2'] at ih ⊢
        exact ih

theorem tsKey_projNoId (d : Doc) : tsKey (projNoId d) = tsKey d := by
  unfold tsKey
  rw [lookup_projNoId d "timestamp" (by decide)]

theorem keyGe_total (a b : Option Int) : keyGe a b = true ∨ keyGe b a = true := by
  cases a <;> cases b <;> simp [keyGe] <;> omega

theorem mem_insertDesc (a x : Doc) (l : List Doc) :
    a ∈ insertDesc x l ↔ a = x ∨ a ∈ l := by
  induction l with
  | nil => simp [insertDesc]
  | cons y ys ih =>
    by_cases h : keyGe (tsKey x) (tsKey y) = true
    · simp [insertDesc, h]
    · simp only [insertDesc, if_neg h, List.mem_cons, ih]
      tauto

theorem mem_sortDesc (a : Doc) (l : List Doc) : a ∈ sortDesc l ↔ a ∈ l := by
  induction l with
  | nil => simp [sortDesc]
  | cons y ys ih =>
    simp only [sortDesc, List.foldr] at ih ⊢
    rw [mem_insertDesc, ih, List.mem_cons]

theorem length_insertDesc (x : Doc) (l : List Doc) :
    (insertDesc x l).length = l.length + 1 := by
  induction l with
  | nil => rfl
  | cons y ys ih =>
    by_cases h : keyGe (tsKey x) (tsKey y) = true
    · simp [insertDesc, h]
    · simp [insertDesc, if_neg h, ih]

theorem length_sortDesc (l : List Doc) : (sortDesc l).length = l.length := by
  induction l with
  | nil => rfl
  | cons y ys ih =>
    simp only [sortDesc, List.foldr] at ih ⊢
    rw [length_insertDesc, ih]
    rfl

theorem sortedDescB_insertDesc (x : Doc) (l : List Doc)
    (hl : sortedDescB l = true) : sortedDescB (insertDesc x l) = true := by
  induction l with
  | nil => rfl
  | cons y ys ih =>
    by_cases h : keyGe (tsKey x) (tsKey y) = true
    · simp [insertDesc, h, sortedDescB, hl]
    · have hyx : keyGe (tsKey y) (tsKey x) = true := by
        rcases keyGe_total (tsKey x) (tsKey y) with h1 | h1
        · exact absurd h1 h
        · exact h1
      have hys : sortedDescB ys = true := by
        cases ys with
        | nil => rfl
        | cons z zs => exact (Bool.and_eq_true _ _ |>.mp hl).2
      have hrec := ih hys
      rw [insertDesc, if_neg h]
      cases hz : insertDesc x ys with
      | nil => rfl
      | cons w ws =>
        have hw : w = x ∨ w ∈ ys := by
          have : w ∈ insertDesc x ys := by rw [hz]; exact List.mem_cons_self _ _
          exact (mem_insertDesc w x ys).mp this
      -- the head of the inserted tail is either x or the old head of ys
        have hhead : keyGe (tsKey y) (tsKey w) = true := by
          cases ys with
          | nil =>
            simp [insertDesc] at hz
            rw [← hz.1]
            exact hyx
          | cons z zs =>
            by_cases h2 : keyGe (tsKey x) (tsKey z) = true
            · simp [insertDesc, h2] at hz
              rw [← hz.1]
              exact hyx
            · simp [insertDesc, if_neg h2] at hz
              have hyz : keyGe (tsKey y) (tsKey z) = true :=
                (Bool.and_eq_true _ _ |>.mp hl).1
              rw [← hz.1]
              exact hyz
        calc sortedDescB (y :: w :: ws)
            = (keyGe (tsKey y) (tsKey w) && sortedDescB (w :: ws)) := rfl
          _ = true := by rw [hhead, ← hz, hrec]; rfl

theorem sortedDescB_sortDesc (l : List Doc) : sortedDescB (sortDesc l) = true := by
  induction l with
  | nil => rfl
  | cons y ys ih =>
    simp only [sortDesc, List.foldr] at ih ⊢
    exact sortedDescB_insertDesc y _ ih

theorem sortedDescB_take (l : List Doc) (n : Nat)
    (hl : sortedDescB l = true) : sortedDescB (l.take n) = true := by
  induction l generalizing n with
  | nil => cases n <;> rfl
  | cons y ys ih =>
    cases n with
    | zero => rfl
    | succ m =>
      have hys : sortedDescB ys = true := by
        cases ys with
        | nil => rfl
        | cons z zs => exact (Bool.and_eq_true _ _ |>.mp hl).2
      cases ys with
      | nil => cases m <;> rfl
      | cons z zs =>
        cases m with
        | zero => rfl
        | succ m2 =>
          have hyz : keyGe (tsKey y) (tsKey z) = true :=
            (Bool.and_eq_true _ _ |>.mp hl).1
          have := ih (m2 + 1) hys
          calc sortedDescB ((y :: z :: zs).take (m2 + 2))
              = (keyGe (tsKey y) (tsKey z) && sortedDescB ((z :: zs).take (m2 + 1))) := rfl
            _ = true := by rw [hyz, this]; rfl

theorem sortedDescB_map_projNoId (l : List Doc) :
    sortedDescB (l.map projNoId) = sortedDescB l := by
  induction l with
  | nil => rfl
  | cons y ys ih =>
    cases ys with
    | nil => rfl
    | cons z zs =>
      calc sortedDescB ((y :: z :: zs).map projNoId)
          = (keyGe (tsKey (projNoId y)) (tsKey (projNoId z)) &&
              sortedDescB ((z :: zs).map projNoId)) := rfl
        _ = (keyGe (tsKey y) (tsKey z) && sortedDescB (z :: zs)) := by
            rw [tsKey_projNoId, tsKey_projNoId, ih]
        _ = sortedDescB (y :: z :: zs) := rfl

theorem docKeys_projNoId (d : Doc) :
    docKeys (projNoId d) = (docKeys d).filter (fun s => !(s == "_id")) := by
  induction d with
  | nil => rfl
  | cons kv rest ih =>
    obtain ⟨k1, v⟩ := kv
    by_cases h : (k1 == "_id") = true
    · simp only [projNoId, docKeys, List.filter, List.map, h, Bool.not_true] at ih ⊢
      exact ih
    · have h' : (k1 == "_id") = false := by
        cases hb : (k1 == "_id")
        · rfl
        · exact absurd hb h
      simp only [projNoId, docKeys, List.filter, List.map, h', Bool.not_false] at ih ⊢
      rw [ih]

theorem lookup_append_left (k : String) (l1 l2 : Doc) (v : PyVal)
    (h : List.lookup k l1 = some v) : List.lookup k (l1 ++ l2) = some v := by
  induction l1 with
  | nil => simp [List.lookup] at h
  | cons kv rest ih =>
    obtain ⟨k1, v1⟩ := kv
    by_cases hk : (k == k1) = true
    · simp [List.lookup, hk] at h ⊢
      exact h
    · have hk' : (k == k1) = false := by
        cases hb : (k == k1)
        · rfl
        · exact absurd hb hk
      simp [List.lookup, hk'] at h ⊢
      exact ih h

theorem fieldNonNull_append_left (d l : Doc) (k : String)
    (h : fieldNonNull d k = true) : fieldNonNull (d ++ l) k = true := by
  unfold fieldNonNull at h ⊢
  cases hl : List.lookup k d with
  | none => rw [hl] at h; simp at h
  | some v =>
    rw [lookup_append_left k d l v hl]
    rw [hl] at h
    exact h

theorem normalize_ok_fields (et : Option String) (p : PyVal) (rec : Doc)
    (h : normalize et p = Except.ok (some rec)) :
    fieldNonNull rec "action" = true ∧ fieldNonNull rec "timestamp" = true ∧
    (List.lookup "action" rec = some (PyVal.str "PUSH") ∨
     List.lookup "action" rec = some (PyVal.str "PULL_REQUEST") ∨
     List.lookup "action" rec = some (PyVal.str "MERGE")) := by
  unfold normalize at h
  simp only [bind, Except.bind] at h
  repeat' split at h
  all_goals first
    | exact Except.noConfusion h
    | (injection h with h2; exact Option.noConfusion h2)
    | (injection h with h2; injection h2 with h3; subst h3; simp [fieldNonNull, List.lookup])

theorem readDigitsAux_shape : ∀ (n acc v : Nat) (cs rest : List Char),
    readDigitsAux acc n cs = some (v, rest) →
    ∃ pre, cs = pre ++ rest ∧ pre.length = n ∧ ∀ c ∈ pre, c.isDigit = true := by
  intro n
  induction n with
  | zero =>
    intro acc v cs rest h
    simp only [readDigitsAux, Option.some.injEq, Prod.mk.injEq] at h
    exact ⟨[], by simp [h.2], rfl, by simp⟩
  | succ m ih =>
    intro acc v cs rest h
    cases cs with
    | nil => simp [readDigitsAux] at h
    | cons c cs2 =>
      rw [readDigitsAux] at h
      by_cases hd : c.isDigit = true
      · rw [if_pos hd] at h
        obtain ⟨pre, hcs, hlen, hdig⟩ := ih _ _ _ _ h
        refine ⟨c :: pre, by rw [List.cons_append, ← hcs], by simp [hlen], ?_⟩
        intro x hx
        rcases List.mem_cons.mp hx with rfl | hx2
        · exact hd
        · exact hdig x hx2
      · rw [if_neg hd] at h
        exact absurd h (by simp)

theorem expectChar_eq (c : Char) (cs rest : List Char) (h : expectChar c cs = some rest) :
    cs = c :: rest := by
  cases cs with
  | nil => simp [expectChar] at h
  | cons x xs =>
    rw [expectChar] at h
    by_cases hx : x = c
    · rw [if_pos hx] at h
      injection h with h2
      rw [hx, h2]
    · rw [if_neg hx] at h
      exact absurd h (by simp)

theorem parseTZ_none_eq (cs : List Char) (h : parseTZ cs = some Option.none) : cs = [] := by
  cases cs with
  | nil => rfl
  | cons c cs2 =>
    rw [parseTZ] at h
    repeat' split at h
    all_goals simp_all

theorem parseTime_none_no_plus (cs : List Char) (h3 mi2 s2 : Nat)
    (h : parseTime cs = some (h3, mi2, s2, Option.none)) : '+' ∉ cs := by
  cases cs with
  | nil => simp
  | cons c cs2 =>
    rw [parseTime] at h
    split at h
    case isFalse => exact absurd h (by simp)
    case isTrue hc =>
    split at h
    case h_1 => exact absurd h (by simp)
    case h_2 hh cs1 hr1 =>
    split at h
    case h_1 => exact absurd h (by simp)
    case h_2 cs2b he1 =>
    split at h
    case h_1 => exact absurd h (by simp)
    case h_2 mm cs3 hr2 =>
    split at h
    case h_1 => exact absurd h (by simp)
    case h_2 cs4 he2 =>
    split at h
    case h_1 => exact absurd h (by simp)
    case h_2 ss cs5 hr3 =>
    split at h
    case h_1 => exact absurd h (by simp)
    case h_2 tz htz =>
    split at h
    case isFalse => exact absurd h (by simp)
    case isTrue hb =>
    injection h with h4
    have htzn : tz = Option.none := by
      have := congrArg (fun q : Nat × Nat × Nat × Option Int => q.2.2.2) h4
      simpa using this
    subst htzn
    have hcs5 : cs5 = [] := parseTZ_none_eq cs5 htz
    subst hcs5
    obtain ⟨pre1, hpre1, hlen1, hdig1⟩ := readDigitsAux_shape _ _ _ _ _ hr1
    obtain ⟨pre2, hpre2, hlen2, hdig2⟩ := readDigitsAux_shape _ _ _ _ _ hr2
    obtain ⟨pre3, hpre3, hlen3, hdig3⟩ := readDigitsAux_shape _ _ _ _ _ hr3
    have hcs1 : cs1 = ':' :: cs2b := expectChar_eq _ _ _ he1
    have hcs3 : cs3 = ':' :: cs4 := expectChar_eq _ _ _ he2
    intro hmem
    rcases List.mem_cons.mp hmem with rfl | hmem2
    · rcases hc with hc1 | hc1 <;> exact absurd hc1 (by decide)
    · rw [hpre1, hcs1, hpre2, hcs3, hpre3] at hmem2
      rcases List.mem_append.mp hmem2 with hp | hrest
      · exact absurd (hdig1 _ hp) (by decide)
      rcases List.mem_cons.mp hrest with heq | hrest2
      · exact absurd heq (by decide)
      rcases List.mem_append.mp hrest2 with hp | hrest3
      · exact absurd (hdig2 _ hp) (by decide)
      rcases List.mem_cons.mp hrest3 with heq | hrest4
      · exact absurd heq (by decide)
      rw [List.append_nil] at hrest4
      exact absurd (hdig3 _ hrest4) (by decide)

theorem fromisoformatL_no_offset_no_plus (cs : List Char) (d : Datetime)
    (h : fromisoformatL cs = some d) (hoff : d.offset = Option.none) : '+' ∉ cs := by
  rw [fromisoformatL] at h
  split at h
  case h_1 => exact absurd h (by simp)
  case h_2 y cs1 hr1 =>
  split at h
  case h_1 => exact absurd h (by simp)
  case h_2 cs2 he1 =>
  split at h
  case h_1 => exact absurd h (by simp)
  case h_2 mo cs3 hr2 =>
  split at h
  case h_1 => exact absurd h (by simp)
  case h_2 cs4 he2 =>
  split at h
  case h_1 => exact absurd h (by simp)
  case h_2 dd cs5 hr3 =>
  split at h
  case h_1 => exact absurd h (by simp)
  case h_2 hh mi sec tz hpt =>
  split at h
  case isFalse => exact absurd h (by simp)
  case isTrue hb =>
  injection h with h4
  subst h4
  simp only at hoff
  subst hoff
  have hplus5 : '+' ∉ cs5 := parseTime_none_no_plus cs5 hh mi sec hpt
  obtain ⟨pre1, hpre1, hlen1, hdig1⟩ := readDigitsAux_shape _ _ _ _ _ hr1
  obtain ⟨pre2, hpre2, hlen2, hdig2⟩ := readDigitsAux_shape _ _ _ _ _ hr2
  obtain ⟨pre3, hpre3, hlen3, hdig3⟩ := readDigitsAux_shape _ _ _ _ _ hr3
  have hcs1 : cs1 = '-' :: cs2 := expectChar_eq _ _ _ he1
  have hcs3 : cs3 = '-' :: cs4 := expectChar_eq _ _ _ he2
  intro hmem
  rw [hpre1, hcs1, hpre2, hcs3, hpre3] at hmem
  rcases List.mem_append.mp hmem with hp | hrest
  · exact absurd (hdig1 _ hp) (by decide)
  rcases List.mem_cons.mp hrest with heq | hrest2
  · exact absurd heq (by decide)
  rcases List.mem_append.mp hrest2 with hp | hrest3
  · exact absurd (hdig2 _ hp) (by decide)
  rcases List.mem_cons.mp hrest3 with heq | hrest4
  · exact absurd heq (by decide)
  rcases List.mem_append.mp hrest4 with hp | hrest5
  · exact absurd (hdig3 _ hp) (by decide)
  exact hplus5 hrest5

theorem replaceZ_no_z (l : List Char) (hz : 'Z' ∉ l) : replaceZ l = l := by
  induction l with
  | nil => rfl
  | cons c cs ih =>
    rw [replaceZ]
    have hcz : ¬(c = 'Z') := fun hh => hz (hh ▸ List.mem_cons_self c cs)
    rw [if_neg hcz, ih (fun hm => hz (List.mem_cons_of_mem c hm))]

theorem replaceZ_append (l1 l2 : List Char) :
    replaceZ (l1 ++ l2) = replaceZ l1 ++ replaceZ l2 := by
  induction l1 with
  | nil => rfl
  | cons c cs ih =>
    by_cases hc : c = 'Z'
    · subst hc; simp [replaceZ, ih]
    · simp [replaceZ, if_neg hc, ih]

theorem github_webhook_push_eq (store : List Doc) (cid pusherName ref ts : String)
    (d : Datetime) (hts : parse_github_timestamp ts = Except.ok d) :
    github_webhook store (some "push") (pushPayload cid pusherName ref ts) =
      Except.ok ⟨insert_one store
        [("request_id", PyVal.str cid),
         ("author", PyVal.str pusherName),
         ("action", PyVal.str "PUSH"),
         ("from_branch", PyVal.pynone),
         ("to_branch", PyVal.str (lastSegment ref)),
         ("timestamp", PyVal.dt d.year d.month d.day d.hour d.minute d.second d.offset)],
        successResp, 200⟩ := by
  simp [github_webhook, normalize, pushPayload, PyVal.truthy, PyVal.getKey, PyVal.asStr,
    List.lookup, hts, bind, Except.bind, pure, Except.pure]

theorem github_webhook_push_parse_error (store : List Doc) (cid pn ref ts : String)
    (hfail : fromisoformatL (replaceZ ts.data) = Option.none) :
    github_webhook store (some "push") (pushPayload cid pn ref ts) =
      Except.error PyErr.valueError := by
  have hp : parse_github_timestamp ts = Except.error PyErr.valueError := by
    rw [parse_github_timestamp, hfail]
  simp [github_webhook, normalize, pushPayload, PyVal.truthy, PyVal.getKey, PyVal.asStr,
    List.lookup, hp, bind, Except.bind, pure, Except.pure]

theorem github_webhook_pr_opened_eq (store : List Doc) (act : String) (prid : Int)
    (login headRef baseRef created mergedAt : String) (merged : Bool) (dc : Datetime)
    (hact : act = "opened" ∨ act = "synchronize")
    (hdc : parse_github_timestamp created = Except.ok dc) :
    github_webhook store (some "pull_request")
        (prPayload act prid login headRef baseRef created merged mergedAt) =
      Except.ok ⟨insert_one store
        [("request_id", PyVal.str (toString prid)),
         ("author", PyVal.str login),
         ("action", PyVal.str "PULL_REQUEST"),
         ("from_branch", PyVal.str headRef),
         ("to_branch", PyVal.str baseRef),
         ("timestamp", PyVal.dt dc.year dc.month dc.day dc.hour dc.minute dc.second dc.offset)],
        successResp, 200⟩ := by
  rcases hact with rfl | rfl <;>
    simp [github_webhook, normalize, prPayload, PyVal.truthy, PyVal.getKey, PyVal.asStr,
      PyVal.beq, pyStr, List.lookup, hdc, bind, Except.bind, pure, Except.pure]

theorem github_webhook_pr_merged_eq (store : List Doc) (prid : Int)
    (login headRef baseRef created mergedAt : String) (dm : Datetime)
    (hdm : parse_github_timestamp mergedAt = Except.ok dm) :
    github_webhook store (some "pull_request")
        (prPayload "closed" prid login headRef baseRef created true mergedAt) =
      Except.ok ⟨insert_one store
        [("request_id", PyVal.str (toString prid)),
         ("author", PyVal.str login),
         ("action", PyVal.str "MERGE"),
         ("from_branch", PyVal.str headRef),
         ("to_branch", PyVal.str baseRef),
         ("timestamp", PyVal.dt dm.year dm.month dm.day dm.hour dm.minute dm.second dm.offset)],
        successResp, 200⟩ := by
  simp [github_webhook, normalize, prPayload, PyVal.truthy, PyVal.getKey, PyVal.asStr,
    PyVal.beq, pyStr, List.lookup, hdm, bind, Except.bind, pure, Except.pure]

theorem github_webhook_pr_closed_unmerged_eq (store : List Doc) (prid : Int)
    (login headRef baseRef created mergedAt : String) :
    github_webhook store (some "pull_request")
        (prPayload "closed" prid login headRef baseRef created false mergedAt) =
      Except.ok ⟨store, successResp, 200⟩ := by
  simp [github_webhook, normalize, prPayload, PyVal.truthy, PyVal.getKey,
    PyVal.beq, List.lookup, bind, Except.bind, pure, Except.pure]

theorem github_webhook_pr_other_eq (store : List Doc) (act : String) (prid : Int)
    (login headRef baseRef created mergedAt : String) (merged : Bool)
    (h1 : act ≠ "opened") (h2 : act ≠ "synchronize") (h3 : act ≠ "closed") :
    github_webhook store (some "pull_request")
        (prPayload act prid login headRef baseRef created merged mergedAt) =
      Except.ok ⟨store, successResp, 200⟩ := by
  have b1 : (act == "opened") = false := beq_eq_false_iff_ne.mpr h1
  have b2 : (act == "synchronize") = false := beq_eq_false_iff_ne.mpr h2
  have b3 : (act == "closed") = false := beq_eq_false_iff_ne.mpr h3
  simp [github_webhook, normalize, prPayload, PyVal.truthy, PyVal.getKey,
    PyVal.beq, List.lookup, b1, b2, b3, bind, Except.bind, pure, Except.pure]

theorem github_webhook_unknown_eq (store : List Doc) (et : Option String) (p : PyVal)
    (hp : p.truthy = true) (h1 : et ≠ some "push") (h2 : et ≠ some "pull_request") :
    github_webhook store et p = Except.ok ⟨store, successResp, 200⟩ := by
  simp [github_webhook, normalize, hp, h1, h2, bind, Except.bind, pure, Except.pure]

end Lemmas

section Claims

/-- C1: for every inbound event with event type push on a payload carrying
the fields the handler reads and a parseable head-commit timestamp, the
handler appends exactly the record with action PUSH, request id equal to
the head-commit identifier, author equal to the pusher name, a null
source branch, target branch equal to the final slash-delimited segment
of the ref string, and the parsed head-commit timestamp. -/
theorem claim_push_normalization (store : List Doc) (cid pusherName ref ts : String)
    (d : Datetime) (hts : parse_github_timestamp ts = Except.ok d) :
    github_webhook store (some "push") (pushPayload cid pusherName ref ts) =
      Except.ok ⟨insert_one store
        [("request_id", PyVal.str cid),
         ("author", PyVal.str pusherName),
         ("action", PyVal.str "PUSH"),
         ("from_branch", PyVal.pynone),
         ("to_branch", PyVal.str (lastSegment ref)),
         ("timestamp", PyVal.dt d.year d.month d.day d.hour d.minute d.second d.offset)],
        successResp, 200⟩ :=
  github_webhook_push_eq store cid pusherName ref ts d hts

/-- C1 witness: the spec scenario, a push to refs/heads/main with commit
abc123 by alice at 2024-01-01T00:00:00Z. -/
theorem claim_push_normalization_witness :
    github_webhook [] (some "push")
        (pushPayload "abc123" "alice" "refs/heads/main" "2024-01-01T00:00:00Z") =
      Except.ok ⟨[[("request_id", PyVal.str "abc123"), ("author", PyVal.str "alice"),
        ("action", PyVal.str "PUSH"), ("from_branch", PyVal.pynone),
        ("to_branch", PyVal.str "main"),
        ("timestamp", PyVal.dt 2024 1 1 0 0 0 (some 0)), ("_id", PyVal.oid 0)]],
        successResp, 200⟩ :=
  (claim_push_normalization [] "abc123" "alice" "refs/heads/main" "2024-01-01T00:00:00Z"
    ⟨2024, 1, 1, 0, 0, 0, some 0⟩ (by decide)).trans (by decide)

/-- C2: for every pull-request event whose inner action is opened or
synchronize, on a payload carrying the fields the handler reads and a
parseable creation time, the handler appends the record with action
PULL_REQUEST, request id the string form of the numeric pull-request id,
author the pull-request author login, source and target branches the
head and base refs, and timestamp the parsed creation time. -/
theorem claim_pull_request_opened (store : List Doc) (act : String) (prid : Int)
    (login headRef baseRef created mergedAt : String) (merged : Bool) (dc : Datetime)
    (hact : act = "opened" ∨ act = "synchronize")
    (hdc : parse_github_timestamp created = Except.ok dc) :
    github_webhook store (some "pull_request")
        (prPayload act prid login headRef baseRef created merged mergedAt) =
      Except.ok ⟨insert_one store
        [("request_id", PyVal.str (toString prid)),
         ("author", PyVal.str login),
         ("action", PyVal.str "PULL_REQUEST"),
         ("from_branch", PyVal.str headRef),
         ("to_branch", PyVal.str baseRef),
         ("timestamp", PyVal.dt dc.year dc.month dc.day dc.hour dc.minute dc.second dc.offset)],
        successResp, 200⟩ :=
  github_webhook_pr_opened_eq store act prid login headRef baseRef created mergedAt
    merged dc hact hdc

/-- C2 witness: the spec scenario, pull request 42 opened by bob from
feature-x into main, created 2024-01-02T10:00:00Z. -/
theorem claim_pull_request_opened_witness :
    github_webhook [] (some "pull_request")
        (prPayload "opened" 42 "bob" "feature-x" "main" "2024-01-02T10:00:00Z" false "") =
      Except.ok ⟨[[("request_id", PyVal.str "42"), ("author", PyVal.str "bob"),
        ("action", PyVal.str "PULL_REQUEST"), ("from_branch", PyVal.str "feature-x"),
        ("to_branch", PyVal.str "main"),
        ("timestamp", PyVal.dt 2024 1 2 10 0 0 (some 0)), ("_id", PyVal.oid 0)]],
        successResp, 200⟩ :=
  (claim_pull_request_opened [] "opened" 42 "bob" "feature-x" "main" "2024-01-02T10:00:00Z"
    "" false ⟨2024, 1, 2, 10, 0, 0, some 0⟩ (Or.inl rfl) (by decide)).trans (by decide)

/-- C3: for every pull-request event whose inner action is closed and
whose merged flag is true, on a payload carrying the fields the handler
reads and a parseable merge time, the handler appends the record with
action MERGE, the same request id, author and branch derivation as for
opened pull requests, and timestamp the parsed merge time (the merged_at
field, not the creation time). -/
theorem claim_pull_request_merge (store : List Doc) (prid : Int)
    (login headRef baseRef created mergedAt : String) (dm : Datetime)
    (hdm : parse_github_timestamp mergedAt = Except.ok dm) :
    github_webhook store (some "pull_request")
        (prPayload "closed" prid login headRef baseRef created true mergedAt) =
      Except.ok ⟨insert_one store
        [("request_id", PyVal.str (toString prid)),
         ("author", PyVal.str login),
         ("action", PyVal.str "MERGE"),
         ("from_branch", PyVal.str headRef),
         ("to_branch", PyVal.str baseRef),
         ("timestamp", PyVal.dt dm.year dm.month dm.day dm.hour dm.minute dm.second dm.offset)],
        successResp, 200⟩ :=
  github_webhook_pr_merged_eq store prid login headRef baseRef created mergedAt dm hdm

/-- C3 witness: the spec scenario, pull request 42 closed with merged
true and merge time 2024-01-03T12:00:00Z; the stored timestamp is the
merge time, not the creation time 2024-01-02T10:00:00Z. -/
theorem claim_pull_request_merge_witness :
    github_webhook [] (some "pull_request")
        (prPayload "closed" 42 "bob" "feature-x" "main" "2024-01-02T10:00:00Z" true
          "2024-01-03T12:00:00Z") =
      Except.ok ⟨[[("request_id", PyVal.str "42"), ("author", PyVal.str "bob"),
        ("action", PyVal.str "MERGE"), ("from_branch", PyVal.str "feature-x"),
        ("to_branch", PyVal.str "main"),
        ("timestamp", PyVal.dt 2024 1 3 12 0 0 (some 0)), ("_id", PyVal.oid 0)]],
        successResp, 200⟩ :=
  (claim_pull_request_merge [] 42 "bob" "feature-x" "main" "2024-01-02T10:00:00Z"
    "2024-01-03T12:00:00Z" ⟨2024, 1, 3, 12, 0, 0, some 0⟩ (by decide)).trans (by decide)

/-- C10: every inbound webhook request whose body parses to a falsy
document, including the empty JSON object, is rejected with HTTP 400 and
the Invalid payload body, for any event type, with the store untouched. -/
theorem claim_falsy_payload_rejected (store : List Doc) (et : Option String) (p : PyVal)
    (hp : p.truthy = false) :
    github_webhook store et p = Except.ok ⟨store, invalidResp, 400⟩ := by
  simp [github_webhook, hp, pure, Except.pure]

/-- C10 witness: the empty JSON object on a push delivery is rejected
with 400 and nothing is stored. -/
theorem claim_falsy_payload_rejected_witness :
    github_webhook [] (some "push") (PyVal.dict []) =
      Except.ok ⟨[], invalidResp, 400⟩ :=
  claim_falsy_payload_rejected [] (some "push") (PyVal.dict []) (by decide)

/-- C4 counterexample: a malformed payload shape on a recognized event
type is not acknowledged as success; a push delivery whose payload lacks
the head_commit key raises KeyError, so the request fails instead of
being a silent no-op. -/
theorem claim_irrelevant_events_cex :
    github_webhook [] (some "push") (PyVal.dict [("commits", PyVal.dict [])]) =
      Except.error (PyErr.keyError "head_commit")
    ∧ github_webhook [] (some "push") (PyVal.dict [("commits", PyVal.dict [])]) ≠
        Except.ok ⟨[], successResp, 200⟩ := by
  decide

/-- C4 (amended): a pull-request event closed without merge, an event of
an unrecognized type with a truthy payload, and a pull-request event
with an unrecognized inner action all produce no record, append nothing,
and are acknowledged with success; malformed payload shapes on
recognized event types are excluded, since they raise instead. -/
theorem claim_irrelevant_events (store : List Doc) (et : Option String) (p : PyVal)
    (act : String) (prid : Int) (login headRef baseRef created mergedAt : String) :
    github_webhook store (some "pull_request")
        (prPayload "closed" prid login headRef baseRef created false mergedAt) =
      Except.ok ⟨store, successResp, 200⟩
    ∧ (p.truthy = true → et ≠ some "push" → et ≠ some "pull_request" →
        github_webhook store et p = Except.ok ⟨store, successResp, 200⟩)
    ∧ (act ≠ "opened" → act ≠ "synchronize" → act ≠ "closed" →
        github_webhook store (some "pull_request")
            (prPayload act prid login headRef baseRef created true mergedAt) =
          Except.ok ⟨store, successResp, 200⟩) :=
  ⟨github_webhook_pr_closed_unmerged_eq store prid login headRef baseRef created mergedAt,
   fun hp h1 h2 => github_webhook_unknown_eq store et p hp h1 h2,
   fun h1 h2 h3 => github_webhook_pr_other_eq store act prid login headRef baseRef
     created mergedAt true h1 h2 h3⟩

/-- C4 witness: a closed-unmerged pull request, an issues event, and a
reopened pull request are each acknowledged with success and append
nothing. -/
theorem claim_irrelevant_events_witness :
    github_webhook [] (some "pull_request")
        (prPayload "closed" 42 "bob" "feature-x" "main" "c" false "m") =
      Except.ok ⟨[], successResp, 200⟩
    ∧ github_webhook [] (some "issues") (PyVal.dict [("a", PyVal.int 1)]) =
        Except.ok ⟨[], successResp, 200⟩
    ∧ github_webhook [] (some "pull_request")
        (prPayload "reopened" 42 "bob" "feature-x" "main" "c" true "m") =
      Except.ok ⟨[], successResp, 200⟩ := by
  obtain ⟨h1, h2, h3⟩ := claim_irrelevant_events [] (some "issues")
    (PyVal.dict [("a", PyVal.int 1)]) "reopened" 42 "bob" "feature-x" "main" "c" "m"
  exact ⟨h1, h2 (by decide) (by decide) (by decide), h3 (by decide) (by decide) (by decide)⟩

/-- C5 counterexample: the events endpoint does not implement the
since-cursor query; a poll request supplying a cutoff of
2024-01-02T00:00:00Z still receives a stored record whose timestamp
2024-01-01T00:00:00Z is at or before the cutoff. -/
theorem claim_since_cursor_cex :
    toInstant ⟨2024, 1, 1, 0, 0, 0, some 0⟩ ≤ toInstant ⟨2024, 1, 2, 0, 0, 0, some 0⟩
    ∧ get_events
        [[("request_id", PyVal.str "abc123"), ("author", PyVal.str "alice"),
          ("action", PyVal.str "PUSH"), ("from_branch", PyVal.pynone),
          ("to_branch", PyVal.str "main"),
          ("timestamp", PyVal.dt 2024 1 1 0 0 0 (some 0)), ("_id", PyVal.oid 0)]]
        (some ⟨2024, 1, 2, 0, 0, 0, some 0⟩) =
      [[("request_id", PyVal.str "abc123"), ("author", PyVal.str "alice"),
        ("action", PyVal.str "PUSH"), ("from_branch", PyVal.pynone),
        ("to_branch", PyVal.str "main"),
        ("timestamp", PyVal.dt 2024 1 1 0 0 0 (some 0))]] := by
  decide

/-- C5 (amended): the events endpoint ignores any recency parameter a
poll request supplies and always returns the bounded-recency result: the
same response as a request without the parameter, at most 20 records,
sorted by timestamp descending. -/
theorem claim_since_param_ignored (store : List Doc) (c : Datetime) :
    get_events store (some c) = get_events store Option.none
    ∧ (get_events store (some c)).length ≤ 20
    ∧ sortedDescB (get_events store (some c)) = true := by
  refine ⟨rfl, ?_, ?_⟩
  · rw [get_events, List.length_map, List.length_take]
    exact Nat.min_le_left _ _
  · rw [get_events, sortedDescB_map_projNoId]
    exact sortedDescB_take _ _ (sortedDescB_sortDesc store)

/-- C9: append writes exactly one new document per call, leaves existing
documents untouched, and never merges, updates, or deduplicates: two
successive appends, even of records with identical request id and
different action, retain both as distinct entries. -/
theorem claim_append_no_dedup (store : List Doc) (r1 r2 : Doc) :
    insert_one store r1 = store ++ [r1 ++ [("_id", PyVal.oid store.length)]]
    ∧ (insert_one store r1).length = store.length + 1
    ∧ insert_one (insert_one store r1) r2 =
        store ++ [r1 ++ [("_id", PyVal.oid store.length)],
                  r2 ++ [("_id", PyVal.oid (store.length + 1))]]
    ∧ r1 ++ [("_id", PyVal.oid store.length)] ≠
        r2 ++ [("_id", PyVal.oid (store.length + 1))] := by
  refine ⟨rfl, by simp [insert_one], by simp [insert_one], ?_⟩
  intro heq
  have hrev := congrArg List.reverse heq
  simp only [List.reverse_append, List.reverse_cons, List.reverse_nil,
    List.nil_append, List.singleton_append, List.cons.injEq, Prod.mk.injEq] at hrev
  have := hrev.1.2
  simp only [PyVal.oid.injEq] at this
  omega

/-- C6: for every poll request without a recency parameter, over a store
of webhook-written canonical documents, the events endpoint returns at
most 20 records (exactly the fixed limit 20 when more are stored),
sorted by timestamp descending, each carrying exactly the six canonical
fields with the internal storage identifier projected away. -/
theorem claim_events_bounded_recency (store : List Doc)
    (hc : ∀ d ∈ store, docKeys d = canonicalFields ++ ["_id"]) :
    (get_events store Option.none).length = min 20 store.length
    ∧ sortedDescB (get_events store Option.none) = true
    ∧ ∀ r ∈ get_events store Option.none,
        docKeys r = canonicalFields ∧ "_id" ∉ docKeys r := by
  refine ⟨?_, ?_, ?_⟩
  · rw [get_events, List.length_map, List.length_take, length_sortDesc]
  · rw [get_events, sortedDescB_map_projNoId]
    exact sortedDescB_take _ _ (sortedDescB_sortDesc store)
  · intro r hr
    rw [get_events] at hr
    obtain ⟨d, hd, rfl⟩ := List.mem_map.mp hr
    have hds : d ∈ store := (mem_sortDesc d store).mp (List.take_subset _ _ hd)
    have hk := hc d hds
    have hkeys : docKeys (projNoId d) = canonicalFields := by
      rw [docKeys_projNoId, hk]
      decide
    refine ⟨hkeys, ?_⟩
    rw [hkeys]
    decide

/-- C6 witness: a store holding a push record and a pull-request record;
the endpoint returns both, newest first, without the storage id. -/
theorem claim_events_bounded_recency_witness :
    (get_events
        [[("request_id", PyVal.str "abc123"), ("author", PyVal.str "alice"),
          ("action", PyVal.str "PUSH"), ("from_branch", PyVal.pynone),
          ("to_branch", PyVal.str "main"),
          ("timestamp", PyVal.dt 2024 1 1 0 0 0 (some 0)), ("_id", PyVal.oid 0)],
         [("request_id", PyVal.str "42"), ("author", PyVal.str "bob"),
          ("action", PyVal.str "PULL_REQUEST"), ("from_branch", PyVal.str "feature-x"),
          ("to_branch", PyVal.str "main"),
          ("timestamp", PyVal.dt 2024 1 2 10 0 0 (some 0)), ("_id", PyVal.oid 1)]]
        Option.none).length =
      min 20
        ([[("request_id", PyVal.str "abc123"), ("author", PyVal.str "alice"),
          ("action", PyVal.str "PUSH"), ("from_branch", PyVal.pynone),
          ("to_branch", PyVal.str "main"),
          ("timestamp", PyVal.dt 2024 1 1 0 0 0 (some 0)), ("_id", PyVal.oid 0)],
         [("request_id", PyVal.str "42"), ("author", PyVal.str "bob"),
          ("action", PyVal.str "PULL_REQUEST"), ("from_branch", PyVal.str "feature-x"),
          ("to_branch", PyVal.str "main"),
          ("timestamp", PyVal.dt 2024 1 2 10 0 0 (some 0)), ("_id", PyVal.oid 1)]] :
          List Doc).length
    ∧ sortedDescB (get_events
        [[("request_id", PyVal.str "abc123"), ("author", PyVal.str "alice"),
          ("action", PyVal.str "PUSH"), ("from_branch", PyVal.pynone),
          ("to_branch", PyVal.str "main"),
          ("timestamp", PyVal.dt 2024 1 1 0 0 0 (some 0)), ("_id", PyVal.oid 0)],
         [("request_id", PyVal.str "42"), ("author", PyVal.str "bob"),
          ("action", PyVal.str "PULL_REQUEST"), ("from_branch", PyVal.str "feature-x"),
          ("to_branch", PyVal.str "main"),
          ("timestamp", PyVal.dt 2024 1 2 10 0 0 (some 0)), ("_id", PyVal.oid 1)]]
        Option.none) = true
    ∧ (docKeys
        [("request_id", PyVal.str "42"), ("author", PyVal.str "bob"),
         ("action", PyVal.str "PULL_REQUEST"), ("from_branch", PyVal.str "feature-x"),
         ("to_branch", PyVal.str "main"),
         ("timestamp", PyVal.dt 2024 1 2 10 0 0 (some 0))] = canonicalFields
       ∧ "_id" ∉ docKeys
        [("request_id", PyVal.str "42"), ("author", PyVal.str "bob"),
         ("action", PyVal.str "PULL_REQUEST"), ("from_branch", PyVal.str "feature-x"),
         ("to_branch", PyVal.str "main"),
         ("timestamp", PyVal.dt 2024 1 2 10 0 0 (some 0))]) := by
  obtain ⟨h1, h2, h3⟩ := claim_events_bounded_recency
    [[("request_id", PyVal.str "abc123"), ("author", PyVal.str "alice"),
      ("action", PyVal.str "PUSH"), ("from_branch", PyVal.pynone),
      ("to_branch", PyVal.str "main"),
      ("timestamp", PyVal.dt 2024 1 1 0 0 0 (some 0)), ("_id", PyVal.oid 0)],
     [("request_id", PyVal.str "42"), ("author", PyVal.str "bob"),
      ("action", PyVal.str "PULL_REQUEST"), ("from_branch", PyVal.str "feature-x"),
      ("to_branch", PyVal.str "main"),
      ("timestamp", PyVal.dt 2024 1 2 10 0 0 (some 0)), ("_id", PyVal.oid 1)]]
    (by decide)
  exact ⟨h1, h2, h3 _ (by decide)⟩

/-- C7 counterexample: the test-db route is an operation of the program
that writes a record with none of the four required fields; the claim
that every record ever written has non-null action, author, request id
and timestamp is false on the code. -/
theorem claim_stored_required_fields_cex :
    test_db [] = ([[("test", PyVal.str "MongoDB connected"), ("_id", PyVal.oid 0)]],
      "MongoDB working!")
    ∧ requiredNonNull [("test", PyVal.str "MongoDB connected"), ("_id", PyVal.oid 0)] =
        false := by
  decide

/-- C7 (amended): every record the webhook handler appends has a
non-null action and timestamp; on the GitHub-shaped payloads with
string-valued identifier, name and login fields, the appended record has
all four required fields non-null.  The test-db diagnostic route is the
exception the original claim missed. -/
theorem claim_stored_required_fields (store : List Doc) (et : Option String) (p : PyVal)
    (res : HandlerResult) (hok : github_webhook store et p = Except.ok res)
    (cid pn ref ts act : String) (prid : Int)
    (login headRef baseRef created mergedAt : String)
    (d dc dm : Datetime)
    (hts : parse_github_timestamp ts = Except.ok d)
    (hact : act = "opened" ∨ act = "synchronize")
    (hdc : parse_github_timestamp created = Except.ok dc)
    (hdm : parse_github_timestamp mergedAt = Except.ok dm) :
    (∀ doc ∈ res.store, doc ∈ store ∨
        (fieldNonNull doc "action" = true ∧ fieldNonNull doc "timestamp" = true))
    ∧ (∀ res2, github_webhook store (some "push") (pushPayload cid pn ref ts) =
          Except.ok res2 →
        ∀ doc ∈ res2.store, doc ∈ store ∨ requiredNonNull doc = true)
    ∧ (∀ res2, github_webhook store (some "pull_request")
          (prPayload act prid login headRef baseRef created false mergedAt) =
          Except.ok res2 →
        ∀ doc ∈ res2.store, doc ∈ store ∨ requiredNonNull doc = true)
    ∧ (∀ res2, github_webhook store (some "pull_request")
          (prPayload "closed" prid login headRef baseRef created true mergedAt) =
          Except.ok res2 →
        ∀ doc ∈ res2.store, doc ∈ store ∨ requiredNonNull doc = true) := by
  refine ⟨?_, ?_, ?_, ?_⟩
  · intro doc hdoc
    rw [github_webhook] at hok
    simp only [bind, Except.bind, pure, Except.pure] at hok
    split at hok
    · injection hok with h2
      subst h2
      exact Or.inl hdoc
    · split at hok
      case h_1 err heq1 => exact Except.noConfusion hok
      case h_2 v heq1 =>
        split at hok
        case h_1 dd =>
          split at hok
          case isTrue hne =>
            injection hok with h2
            subst h2
            have hdoc2 : doc ∈ store ++ [dd ++ [("_id", PyVal.oid store.length)]] := hdoc
            rcases List.mem_append.mp hdoc2 with hl | hr
            · exact Or.inl hl
            · right
              have hde := List.mem_singleton.mp hr
              subst hde
              obtain ⟨ha, ht, _⟩ := normalize_ok_fields et p dd heq1
              exact ⟨fieldNonNull_append_left _ _ _ ha, fieldNonNull_append_left _ _ _ ht⟩
          case isFalse hne =>
            injection hok with h2
            subst h2
            exact Or.inl hdoc
        case h_2 =>
          injection hok with h2
          subst h2
          exact Or.inl hdoc
  · intro res2 h2 doc hdoc
    have h3 := (h2.symm.trans (github_webhook_push_eq store cid pn ref ts d hts))
    injection h3 with h4
    subst h4
    have hdoc2 : doc ∈ store ++
        [[("request_id", PyVal.str cid), ("author", PyVal.str pn),
          ("action", PyVal.str "PUSH"), ("from_branch", PyVal.pynone),
          ("to_branch", PyVal.str (lastSegment ref)),
          ("timestamp", PyVal.dt d.year d.month d.day d.hour d.minute d.second d.offset)]
          ++ [("_id", PyVal.oid store.length)]] := hdoc
    rcases List.mem_append.mp hdoc2 with hl | hr
    · exact Or.inl hl
    · right
      have hde := List.mem_singleton.mp hr
      subst hde
      simp [requiredNonNull, fieldNonNull, List.lookup]
  · intro res2 h2 doc hdoc
    have h3 := (h2.symm.trans (github_webhook_pr_opened_eq store act prid login headRef
      baseRef created mergedAt false dc hact hdc))
    injection h3 with h4
    subst h4
    have hdoc2 : doc ∈ store ++
        [[("request_id", PyVal.str (toString prid)), ("author", PyVal.str login),
          ("action", PyVal.str "PULL_REQUEST"), ("from_branch", PyVal.str headRef),
          ("to_branch", PyVal.str baseRef),
          ("timestamp", PyVal.dt dc.year dc.month dc.day dc.hour dc.minute dc.second dc.offset)]
          ++ [("_id", PyVal.oid store.length)]] := hdoc
    rcases List.mem_append.mp hdoc2 with hl | hr
    · exact Or.inl hl
    · right
      have hde := List.mem_singleton.mp hr
      subst hde
      simp [requiredNonNull, fieldNonNull, List.lookup]
  · intro res2 h2 doc hdoc
    have h3 := (h2.symm.trans (github_webhook_pr_merged_eq store prid login headRef
      baseRef created mergedAt dm hdm))
    injection h3 with h4
    subst h4
    have hdoc2 : doc ∈ store ++
        [[("request_id", PyVal.str (toString prid)), ("author", PyVal.str login),
          ("action", PyVal.str "MERGE"), ("from_branch", PyVal.str headRef),
          ("to_branch", PyVal.str baseRef),
          ("timestamp", PyVal.dt dm.year dm.month dm.day dm.hour dm.minute dm.second dm.offset)]
          ++ [("_id", PyVal.oid store.length)]] := hdoc
    rcases List.mem_append.mp hdoc2 with hl | hr
    · exact Or.inl hl
    · right
      have hde := List.mem_singleton.mp hr
      subst hde
      simp [requiredNonNull, fieldNonNull, List.lookup]

/-- C7 witness: the record appended for the spec push scenario carries
all four required fields non-null. -/
theorem claim_stored_required_fields_witness :
    requiredNonNull [("request_id", PyVal.str "abc123"), ("author", PyVal.str "alice"),
      ("action", PyVal.str "PUSH"), ("from_branch", PyVal.pynone),
      ("to_branch", PyVal.str "main"), ("timestamp", PyVal.dt 2024 1 1 0 0 0 (some 0)),
      ("_id", PyVal.oid 0)] = true := by
  have h := claim_stored_required_fields [] (some "push")
    (pushPayload "abc123" "alice" "refs/heads/main" "2024-01-01T00:00:00Z")
    ⟨[[("request_id", PyVal.str "abc123"), ("author", PyVal.str "alice"),
      ("action", PyVal.str "PUSH"), ("from_branch", PyVal.pynone),
      ("to_branch", PyVal.str "main"), ("timestamp", PyVal.dt 2024 1 1 0 0 0 (some 0)),
      ("_id", PyVal.oid 0)]], successResp, 200⟩ (by decide)
    "abc123" "alice" "refs/heads/main" "2024-01-01T00:00:00Z" "opened" 42
    "bob" "feature-x" "main" "2024-01-02T10:00:00Z" "2024-01-03T12:00:00Z"
    ⟨2024, 1, 1, 0, 0, 0, some 0⟩ ⟨2024, 1, 2, 10, 0, 0, some 0⟩
    ⟨2024, 1, 3, 12, 0, 0, some 0⟩
    (by decide) (Or.inl rfl) (by decide) (by decide)
  exact ((h.2.1 ⟨[[("request_id", PyVal.str "abc123"), ("author", PyVal.str "alice"),
      ("action", PyVal.str "PUSH"), ("from_branch", PyVal.pynone),
      ("to_branch", PyVal.str "main"), ("timestamp", PyVal.dt 2024 1 1 0 0 0 (some 0)),
      ("_id", PyVal.oid 0)]], successResp, 200⟩ (by decide)) _ (by decide)).resolve_left
    (by decide)

/-- C8: for every timestamp string written as a Z-suffixed ISO-8601
instant, parsing first rewrites the designator to the explicit
zero-offset form and parses the result, and any successfully parsed
instant carries an explicit UTC offset; and a timestamp string the
parser rejects, on an otherwise-valid push event, raises ValueError,
which propagates to the request boundary with no record appended rather
than being treated as a silent no-record case. -/
theorem claim_timestamp_parsing (t : String) (hz : 'Z' ∉ t.data)
    (d : Datetime) (hd : parse_github_timestamp (t ++ "Z") = Except.ok d)
    (ts : String) (hfail : fromisoformatL (replaceZ ts.data) = Option.none)
    (store : List Doc) (cid pn ref : String) :
    parse_github_timestamp (t ++ "Z") =
      (match fromisoformatL (t.data ++ ['+', '0', '0', ':', '0', '0']) with
       | some d2 => Except.ok d2
       | Option.none => Except.error PyErr.valueError)
    ∧ d.offset.isSome = true
    ∧ github_webhook store (some "push") (pushPayload cid pn ref ts) =
        Except.error PyErr.valueError := by
  have hdata : (t ++ "Z").data = t.data ++ ['Z'] := String.data_append t "Z"
  have hrepl : replaceZ (t ++ "Z").data = t.data ++ ['+', '0', '0', ':', '0', '0'] := by
    rw [hdata, replaceZ_append, replaceZ_no_z t.data hz]
    rfl
  have hmain : parse_github_timestamp (t ++ "Z") =
      (match fromisoformatL (t.data ++ ['+', '0', '0', ':', '0', '0']) with
       | some d2 => Except.ok d2
       | Option.none => Except.error PyErr.valueError) := by
    rw [parse_github_timestamp, hrepl]
  refine ⟨hmain, ?_, ?_⟩
  · rw [hmain] at hd
    cases hfi : fromisoformatL (t.data ++ ['+', '0', '0', ':', '0', '0']) with
    | none => rw [hfi] at hd; exact Except.noConfusion hd
    | some d2 =>
      rw [hfi] at hd
      injection hd with h2
      subst h2
      cases ho : d2.offset with
      | none =>
        have hplus := fromisoformatL_no_offset_no_plus _ d2 hfi ho
        exact absurd (by simp : '+' ∈ t.data ++ ['+', '0', '0', ':', '0', '0']) hplus
      | some off => rfl
  · exact github_webhook_push_parse_error store cid pn ref ts hfail

/-- C8 witness: 2024-01-01T00:00:00Z parses through the zero-offset
rewrite and an unparseable timestamp makes the push request fail. -/
theorem claim_timestamp_parsing_witness :
    parse_github_timestamp ("2024-01-01T00:00:00" ++ "Z") =
      (match fromisoformatL ("2024-01-01T00:00:00".data ++ ['+', '0', '0', ':', '0', '0']) with
       | some d2 => Except.ok d2
       | Option.none => Except.error PyErr.valueError)
    ∧ (⟨2024, 1, 1, 0, 0, 0, some 0⟩ : Datetime).offset.isSome = true
    ∧ github_webhook [] (some "push")
        (pushPayload "abc123" "alice" "refs/heads/main" "not-a-timestamp") =
      Except.error PyErr.valueError :=
  claim_timestamp_parsing "2024-01-01T00:00:00" (by decide)
    ⟨2024, 1, 1, 0, 0, 0, some 0⟩ (by decide) "not-a-timestamp" (by decide)
    [] "abc123" "alice" "refs/heads/main"

end Claims

end WebhookApp
